import Mathlib

/-!
Verification of the econf recursive override engine.

Shallow embedding of:
* `econf/src/loader.rs` — `Loader`, `Loader::is_duplicated`, `Loader::load_and_map`
  (the yaml / from_str wrappers are `load_and_map` with a specific conversion);
* `econf/src/lib.rs` — `load` (fresh `Loader`, one descent, value returned);
* `econf-derive/src/lib.rs` — the code the `LoadEnv` derive generates for named
  records, positional records and unit-variant enums, represented by a schema
  datatype (`Sch`) whose interpreter `loadSch` is the generated descent.

The process environment is modelled as a function `String → Option String`
(`std::env::var` returns `Err` for an absent key).  Conversion functions
(`FnOnce(&str) -> Result<T, E>`) are modelled as `String → Option T`; the log
facade (`log::info!/warn!/error!`) is modelled as a list of `Diag` entries
accumulated in the loader state, abstracting the human-readable message text.
-/

namespace Econf

/-- The ambient environment-variable store; `none` models an absent key. -/
def Env : Type := String → Option String

/-- Rust's `str::to_uppercase`, modelled as per-character upper-casing of the
string's characters (they agree on ASCII paths, the only ones the engine
builds from identifiers, indices and `"_"`). -/
def upper (s : String) : String := ⟨s.data.map Char.toUpper⟩

/-- Diagnostics emitted by the engine through the log facade:
the `warn!` on a duplicated path, the `info!` on a found / not-found key,
the `error!` on a parse failure, and the `error!` from the derive-generated
enum match on an unmatched variant string. -/
inductive Diag where
  | warnDup (path : String)
  | infoFound (path s : String)
  | errParse (path s : String)
  | infoNotFound (path : String)
  | errVariant (s : String)
deriving DecidableEq, Repr

/-- `Loader` of `loader.rs`: the set of already-consulted paths
(`HashSet<String>` modelled as a duplicate-free-by-use list) together with the
diagnostics emitted so far. -/
structure Loader where
  paths : List String
  logs : List Diag
deriving DecidableEq, Repr

/-- `Loader::new()`: empty path set, nothing logged. -/
def Loader.new : Loader := ⟨[], []⟩

/-- Append one diagnostic to the log. -/
def Loader.log (l : Loader) (d : Diag) : Loader :=
  { l with logs := l.logs ++ [d] }

/-- `Loader::is_duplicated`: `!self.paths.insert(path.into())`.
`HashSet::insert` returns `false` (so `is_duplicated` returns `true`) and
leaves the set unchanged when the path is already present; otherwise the path
is inserted exactly as given and the call returns `false`.  Note that this
function performs no case normalization itself. -/
def Loader.is_duplicated (l : Loader) (path : String) : Bool × Loader :=
  if path ∈ l.paths then (true, l)
  else (false, { l with paths := path :: l.paths })

/-- `Loader::load_and_map`: upper-case the path, check-and-register it in the
duplicate set (warning when duplicated), look the upper-cased key up in the
environment, and on a hit run the conversion; every failure path returns
`fallback_value`. -/
def Loader.load_and_map {T : Type} (env : Env) (l : Loader) (fallback : T)
    (path : String) (map : String → Option T) : T × Loader :=
  let p := upper path
  let dl := l.is_duplicated p
  let l2 := if dl.1 then dl.2.log (.warnDup p) else dl.2
  match env p with
  | some s =>
    match map s with
    | some v => (v, l2.log (.infoFound p s))
    | none => (fallback, l2.log (.errParse p s))
  | none => (fallback, l2.log (.infoNotFound p))

mutual
/-- Schema of a type participating in the override protocol, i.e. the shape of
the `LoadEnv` implementation the derive in `econf-derive/src/lib.rs` emits.
`leaf` covers every type whose impl delegates to `load_from_str`,
`load_from_yaml` or a direct `load_and_map` (scalars, containers, Duration):
its `parse` is the conversion closure.  `recd` is a derived record
(`named = true` for named fields, `false` for positional ones).  `enm` is a
derived unit-variant enum: each variant is its identifier paired with its
optional `#[econf(rename = "...")]` string. -/
inductive Sch (V : Type) where
  | leaf (parse : String → Option V)
  | recd (named : Bool) (fields : Fields V)
  | enm (variants : List (String × Option String))

inductive Fields (V : Type) where
  | nil
  | fcons (skip : Bool) (rename : Option String) (ident : String)
      (sub : Sch V) (rest : Fields V)
end

mutual
/-- A runtime value of a schema: a leaf payload, a record of field values, or
a unit-enum value identified by its variant identifier. -/
inductive Val (V : Type) where
  | leafv (v : V)
  | recv (fields : Vals V)
  | enumv (ident : String)

inductive Vals (V : Type) where
  | nil
  | vcons (head : Val V) (tail : Vals V)
end

/-- The path segment the derive uses for a field: the rename string when the
field carries `#[econf(rename = "...")]`, else `stringify!(ident)` for a named
field, else the decimal rendering of the zero-based index for a positional
field. -/
def segmentOf (named : Bool) (i : Nat) (rename : Option String)
    (ident : String) : String :=
  match rename with
  | some r => r
  | none => if named then ident else toString i

/-- The derive's path concatenation `path.to_owned() + "_" + segment`. -/
def childPath (base seg : String) : String := base ++ "_" ++ seg

/-- The derive-generated enum `match`: the variant arms come first, in
declaration order, each matching the variant's rename if present else its
identifier, and producing the variant's own identifier. -/
def findTok : List (String × Option String) → String → Option String
  | [], _ => none
  | (id, rn) :: rest, s => if rn.getD id = s then some id else findTok rest s

mutual
/-- The `LoadEnv::load` implementation for a schema, as generated by the
derive (and, for `leaf`, as written in `econf/src/lib.rs`):
a leaf delegates to `load_and_map` with its conversion; a record loads each
field in declaration order, skipped fields passing through; an enum first
loads a plain string at exactly `path` starting from `String::default()`,
then matches it against the variant tokens, then `""`, then logs an error.
A value whose shape does not match the schema is returned unchanged (this
cannot arise from the derive, where values and schemas share one type). -/
def loadSch {V : Type} (env : Env) : Sch V → Val V → String → Loader → Val V × Loader
  | .leaf parse, .leafv v, path, st =>
    let r := Loader.load_and_map env st v path parse
    (.leafv r.1, r.2)
  | .leaf _, v, _, st => (v, st)
  | .recd named fields, .recv vs, path, st =>
    let r := loadFields env named fields vs path 0 st
    (.recv r.1, r.2)
  | .recd _ _, v, _, st => (v, st)
  | .enm variants, .enumv cur, path, st =>
    let r := Loader.load_and_map env st "" path (fun x => some x)
    match findTok variants r.1 with
    | some id => (.enumv id, r.2)
    | none =>
      if r.1 = "" then (.enumv cur, r.2)
      else (.enumv cur, r.2.log (.errVariant r.1))
  | .enm _, v, _, st => (v, st)

/-- Field-by-field descent of a record body, `i` being the zero-based index
of the first field of `fields` in the record.  A field with `skip = true`
contributes its current value verbatim and touches neither the environment
nor the loader.  Shape mismatches (impossible from the derive) pass values
through. -/
def loadFields {V : Type} (env : Env) (named : Bool) :
    Fields V → Vals V → String → Nat → Loader → Vals V × Loader
  | .nil, vs, _, _, st => (vs, st)
  | .fcons _ _ _ _ _, .nil, _, _, st => (.nil, st)
  | .fcons true _ _ _ rest, .vcons v vs, path, i, st =>
    let r := loadFields env named rest vs path (i + 1) st
    (.vcons v r.1, r.2)
  | .fcons false rn id sub rest, .vcons v vs, path, i, st =>
    let r1 := loadSch env sub v (childPath path (segmentOf named i rn id)) st
    let r2 := loadFields env named rest vs path (i + 1) r1.2
    (.vcons r1.1 r2.1, r2.2)
end

/-- `econf::load`: build a fresh `Loader`, run the descent, return the value
and discard the loader. -/
def load {V : Type} (env : Env) (sch : Sch V) (v : Val V) (pfx : String) : Val V :=
  (loadSch env sch v pfx Loader.new).1

mutual
/-- The upper-cased environment keys a descent consults, in consultation
order. -/
def keysOf {V : Type} : Sch V → Val V → String → List String
  | .leaf _, .leafv _, path => [upper path]
  | .leaf _, _, _ => []
  | .recd named fields, .recv vs, path => keysFields named fields vs path 0
  | .recd _ _, _, _ => []
  | .enm _, .enumv _, path => [upper path]
  | .enm _, _, _ => []

def keysFields {V : Type} (named : Bool) :
    Fields V → Vals V → String → Nat → List String
  | .nil, _, _, _ => []
  | .fcons _ _ _ _ _, .nil, _, _ => []
  | .fcons true _ _ _ rest, .vcons _ vs, path, i =>
    keysFields named rest vs path (i + 1)
  | .fcons false rn id sub rest, .vcons v vs, path, i =>
    keysOf sub v (childPath path (segmentOf named i rn id)) ++
      keysFields named rest vs path (i + 1)
end

/-- The value at a zero-based field position of a record body. -/
def getVal {V : Type} : Vals V → Nat → Option (Val V)
  | .nil, _ => none
  | .vcons v _, 0 => some v
  | .vcons _ tl, n + 1 => getVal tl n

/-- The skip flag of the field at a zero-based position. -/
def skipAt {V : Type} : Fields V → Nat → Option Bool
  | .nil, _ => none
  | .fcons sk _ _ _ _, 0 => some sk
  | .fcons _ _ _ _ rest, n + 1 => skipAt rest n

/-- A derived enum's variant tokens are never the empty string: a variant
identifier is a nonempty Rust identifier and an empty rename string panics at
macro-expansion time (`Ident::new("")`), i.e. is rejected at compile time. -/
def wfVariants (variants : List (String × Option String)) : Prop :=
  ∀ p ∈ variants, p.2.getD p.1 ≠ ""

instance (variants : List (String × Option String)) :
    Decidable (wfVariants variants) := by
  unfold wfVariants; infer_instance

mutual
/-- Schema well-formedness: every enum occurring in the schema has nonempty
variant tokens (always true of derive output, see `wfVariants`). -/
def wfSch {V : Type} : Sch V → Prop
  | .leaf _ => True
  | .recd _ fields => wfFields fields
  | .enm variants => wfVariants variants

def wfFields {V : Type} : Fields V → Prop
  | .nil => True
  | .fcons _ _ _ sub rest => wfSch sub ∧ wfFields rest
end

/-! ## Helper lemmas -/

/-- Full characterization of one `load_and_map` call: the returned value, the
path set and the log, each as a function of the inputs. -/
theorem lam_unfold {T : Type} (env : Env) (l : Loader) (fb : T) (path : String)
    (map : String → Option T) :
    Loader.load_and_map env l fb path map =
      ((match env (upper path) with
        | some s => (map s).getD fb
        | none => fb),
       { paths := if upper path ∈ l.paths then l.paths else upper path :: l.paths,
         logs := l.logs
           ++ (if upper path ∈ l.paths then [Diag.warnDup (upper path)] else [])
           ++ (match env (upper path) with
               | some s =>
                 match map s with
                 | some _ => [Diag.infoFound (upper path) s]
                 | none => [Diag.errParse (upper path) s]
               | none => [Diag.infoNotFound (upper path)]) }) := by
  unfold Loader.load_and_map Loader.is_duplicated Loader.log
  by_cases h : upper path ∈ l.paths <;>
    cases he : env (upper path) <;>
    simp [h, he] <;>
    rename_i s <;>
    cases hm : map s <;>
    simp [h, he, hm]

/-- The value returned by `load_and_map` as a function of the environment and
the conversion alone (it does not depend on the loader state). -/
theorem lam_fst {T : Type} (env : Env) (l : Loader) (fb : T) (path : String)
    (map : String → Option T) :
    (Loader.load_and_map env l fb path map).1 =
      (match env (upper path) with
       | some s => (map s).getD fb
       | none => fb) := by
  rw [lam_unfold]

/-- The path set after `load_and_map`: the upper-cased path is added when new. -/
theorem lam_paths {T : Type} (env : Env) (l : Loader) (fb : T) (path : String)
    (map : String → Option T) :
    (Loader.load_and_map env l fb path map).2.paths =
      (if upper path ∈ l.paths then l.paths else upper path :: l.paths) := by
  rw [lam_unfold]

/-- The log after `load_and_map`: the old log, then the duplicate warning when
the path was registered before, then exactly one lookup outcome entry. -/
theorem lam_logs {T : Type} (env : Env) (l : Loader) (fb : T) (path : String)
    (map : String → Option T) :
    (Loader.load_and_map env l fb path map).2.logs =
      l.logs
        ++ (if upper path ∈ l.paths then [Diag.warnDup (upper path)] else [])
        ++ (match env (upper path) with
            | some s =>
              match map s with
              | some _ => [Diag.infoFound (upper path) s]
              | none => [Diag.errParse (upper path) s]
            | none => [Diag.infoNotFound (upper path)]) := by
  rw [lam_unfold]

/-- `Loader.log` only appends to the log; the path set is untouched. -/
theorem log_paths (l : Loader) (d : Diag) : (l.log d).paths = l.paths := rfl

/-- Under well-formed variants no variant token is the empty string, so the
empty string matches no variant arm. -/
theorem findTok_empty_of_wf (variants : List (String × Option String))
    (h : wfVariants variants) : findTok variants "" = none := by
  induction variants with
  | nil => rfl
  | cons p rest ih =>
    obtain ⟨id, rn⟩ := p
    have h1 : rn.getD id ≠ "" := h (id, rn) (by simp)
    simp [findTok, h1]
    exact ih (fun q hq => h q (by simp [hq]))

mutual
/-- When the environment is unset at every key the descent consults, the
descent returns the value unchanged (for any incoming loader state). -/
theorem loadSch_fst_id {V : Type} (env : Env) (sch : Sch V) (v : Val V)
    (pfx : String) (st : Loader) (hwf : wfSch sch)
    (h : ∀ k ∈ keysOf sch v pfx, env k = none) :
    (loadSch env sch v pfx st).1 = v := by
  cases sch with
  | leaf parse =>
    cases v with
    | leafv x =>
      have he : env (upper pfx) = none := h _ (by simp [keysOf])
      simp [loadSch, lam_fst, he]
    | recv vs => simp [loadSch]
    | enumv id => simp [loadSch]
  | recd named fields =>
    cases v with
    | leafv x => simp [loadSch]
    | recv vs =>
      have hwf2 : wfFields fields := by simpa [wfSch] using hwf
      have h2 : ∀ k ∈ keysFields named fields vs pfx 0, env k = none := by
        intro k hk; exact h k (by simpa [keysOf] using hk)
      simp [loadSch, loadFields_fst_id env named fields vs pfx 0 st hwf2 h2]
    | enumv id => simp [loadSch]
  | enm variants =>
    cases v with
    | leafv x => simp [loadSch]
    | recv vs => simp [loadSch]
    | enumv cur =>
      have he : env (upper pfx) = none := h _ (by simp [keysOf])
      have hwf2 : wfVariants variants := by simpa [wfSch] using hwf
      simp [loadSch, lam_fst, he, findTok_empty_of_wf variants hwf2]

/-- Field version of `loadSch_fst_id`. -/
theorem loadFields_fst_id {V : Type} (env : Env) (named : Bool)
    (fields : Fields V) (vs : Vals V) (path : String) (i : Nat) (st : Loader)
    (hwf : wfFields fields)
    (h : ∀ k ∈ keysFields named fields vs path i, env k = none) :
    (loadFields env named fields vs path i st).1 = vs := by
  cases fields with
  | nil => simp [loadFields]
  | fcons sk rn id sub rest =>
    cases vs with
    | nil => simp [loadFields]
    | vcons v vtl =>
      have hwf2 : wfSch sub ∧ wfFields rest := by simpa [wfFields] using hwf
      cases sk with
      | true =>
        have h2 : ∀ k ∈ keysFields named rest vtl path (i + 1), env k = none := by
          intro k hk; exact h k (by simpa [keysFields] using hk)
        simp [loadFields,
          loadFields_fst_id env named rest vtl path (i + 1) st hwf2.2 h2]
      | false =>
        have hsub : ∀ k ∈ keysOf sub v (childPath path (segmentOf named i rn id)),
            env k = none := by
          intro k hk; exact h k (by simp [keysFields, hk])
        have hrest : ∀ k ∈ keysFields named rest vtl path (i + 1), env k = none := by
          intro k hk; exact h k (by simp [keysFields, hk])
        simp [loadFields,
          loadSch_fst_id env sub v (childPath path (segmentOf named i rn id)) st
            hwf2.1 hsub,
          loadFields_fst_id env named rest vtl path (i + 1) _ hwf2.2 hrest]
end

mutual
/-- The descent only ever grows the set of registered paths. -/
theorem loadSch_paths_mono {V : Type} (env : Env) (sch : Sch V) (v : Val V)
    (pfx : String) (st : Loader) :
    ∀ x ∈ st.paths, x ∈ (loadSch env sch v pfx st).2.paths := by
  intro x hx
  cases sch with
  | leaf parse =>
    cases v with
    | leafv w =>
      simp only [loadSch, lam_paths]
      by_cases hm : upper pfx ∈ st.paths <;> simp [hm, hx]
    | recv vs => simpa [loadSch] using hx
    | enumv id => simpa [loadSch] using hx
  | recd named fields =>
    cases v with
    | leafv w => simpa [loadSch] using hx
    | recv vs =>
      simpa [loadSch] using
        loadFields_paths_mono env named fields vs pfx 0 st x hx
    | enumv id => simpa [loadSch] using hx
  | enm variants =>
    cases v with
    | leafv w => simpa [loadSch] using hx
    | recv vs => simpa [loadSch] using hx
    | enumv cur =>
      have hx2 : x ∈ (Loader.load_and_map env st "" pfx
          (fun x => some x)).2.paths := by
        rw [lam_paths]
        by_cases hm : upper pfx ∈ st.paths <;> simp [hm, hx]
      simp only [loadSch]
      cases hf : findTok variants
          (Loader.load_and_map env st "" pfx (fun x => some x)).1 with
      | some id => simpa [hf] using hx2
      | none =>
        by_cases hz : (Loader.load_and_map env st "" pfx (fun x => some x)).1 = ""
        · simpa [hf, hz] using hx2
        · simpa [hf, hz, log_paths] using hx2

/-- Field version of `loadSch_paths_mono`. -/
theorem loadFields_paths_mono {V : Type} (env : Env) (named : Bool)
    (fields : Fields V) (vs : Vals V) (path : String) (i : Nat) (st : Loader) :
    ∀ x ∈ st.paths, x ∈ (loadFields env named fields vs path i st).2.paths := by
  intro x hx
  cases fields with
  | nil => simpa [loadFields] using hx
  | fcons sk rn id sub rest =>
    cases vs with
    | nil => simpa [loadFields] using hx
    | vcons v vtl =>
      cases sk with
      | true =>
        simpa [loadFields] using
          loadFields_paths_mono env named rest vtl path (i + 1) st x hx
      | false =>
        have h1 := loadSch_paths_mono env sub v
          (childPath path (segmentOf named i rn id)) st x hx
        simpa [loadFields] using
          loadFields_paths_mono env named rest vtl path (i + 1) _ x h1
end

/-- A field whose skip flag is set keeps its value through the descent,
whatever the environment and the incoming loader state. -/
theorem loadFields_skip_get {V : Type} (env : Env) (named : Bool)
    (fields : Fields V) (vals : Vals V) (path : String) (i : Nat) (st : Loader)
    (j : Nat) (hskip : skipAt fields j = some true) :
    getVal (loadFields env named fields vals path i st).1 j = getVal vals j := by
  cases fields with
  | nil => simp [skipAt] at hskip
  | fcons sk rn id sub rest =>
    cases vals with
    | nil => cases j <;> simp [loadFields, getVal]
    | vcons v vtl =>
      cases j with
      | zero =>
        have hsk : sk = true := by simpa [skipAt] using hskip
        subst hsk
        simp [loadFields, getVal]
      | succ n =>
        have hskip2 : skipAt rest n = some true := by simpa [skipAt] using hskip
        cases sk with
        | true =>
          simpa [loadFields, getVal] using
            loadFields_skip_get env named rest vtl path (i + 1) st n hskip2
        | false =>
          simpa [loadFields, getVal] using
            loadFields_skip_get env named rest vtl path (i + 1) _ n hskip2

/-! ## Claims -/

/-- C1: `Loader::load_and_map(v, p, f)` never raises to its caller: when the
upper-cased key is absent from the environment it returns the fallback `v`;
when the key is present but the conversion `f` fails on the found string it
also returns `v`; when the conversion succeeds its result is returned.  The
function is total (a Lean `def`), so no input causes a panic or a propagated
fault. -/
theorem C1_load_and_map_fail_open {T : Type} (env : Env) (l : Loader) (fb : T)
    (path : String) (map : String → Option T) :
    (env (upper path) = none →
      (Loader.load_and_map env l fb path map).1 = fb) ∧
    (∀ s, env (upper path) = some s → map s = none →
      (Loader.load_and_map env l fb path map).1 = fb) ∧
    (∀ s v, env (upper path) = some s → map s = some v →
      (Loader.load_and_map env l fb path map).1 = v) := by
  refine ⟨fun h => ?_, fun s hs hm => ?_, fun s v hs hm => ?_⟩
  · rw [lam_fst]; simp [h]
  · rw [lam_fst]; simp [hs, hm]
  · rw [lam_fst]; simp [hs, hm]

/-- Witness for C1: the three outcomes at concrete inputs — key absent, key
present with a failing conversion, key present with a succeeding one. -/
theorem C1_witness :
    (Loader.load_and_map (fun _ => none) Loader.new (3 : Nat) "k"
      (fun _ => none)).1 = 3 ∧
    (Loader.load_and_map (fun _ => some "bad") Loader.new (3 : Nat) "k"
      (fun _ => none)).1 = 3 ∧
    (Loader.load_and_map (fun _ => some "7") Loader.new (3 : Nat) "k"
      (fun s => if s = "7" then some 7 else none)).1 = 7 :=
  ⟨(C1_load_and_map_fail_open (fun _ => none) Loader.new 3 "k" (fun _ => none)).1
      rfl,
   (C1_load_and_map_fail_open (fun _ => some "bad") Loader.new 3 "k"
      (fun _ => none)).2.1 "bad" rfl rfl,
   (C1_load_and_map_fail_open (fun _ => some "7") Loader.new 3 "k"
      (fun s => if s = "7" then some 7 else none)).2.2 "7" 7 rfl (by decide)⟩

/-- C3 counterexample: `Loader::is_duplicated` does NOT normalize its argument
to upper-case.  On a fresh loader, consulting `"x"` registers the string
verbatim, and then consulting `"X"` — a path differing from `"x"` only in
letter case — returns `false`, where the claim requires `true`. -/
theorem C3_counterexample :
    (Loader.new.is_duplicated "x").2.paths = ["x"] ∧
    ((Loader.new.is_duplicated "x").2.is_duplicated "X").1 = false := by
  constructor <;> decide

/-- C3 amended: `is_duplicated` registers its argument exactly as given, with
no case normalization: it returns `true` and leaves the set's contents
unchanged when the path was already registered verbatim, and otherwise
inserts the path and returns `false`.  Upper-casing is performed by its
caller `load_and_map` before the call, so through `load_and_map` consulting a
path and then a path differing only in letter case does flag a duplicate on
the second consultation. -/
theorem C3_is_duplicated_exact (l : Loader) (path : String) :
    (path ∈ l.paths → l.is_duplicated path = (true, l)) ∧
    (path ∉ l.paths →
      (l.is_duplicated path).1 = false ∧
      (l.is_duplicated path).2.paths = path :: l.paths) ∧
    (∀ {T1 T2 : Type} (env : Env) (fb1 : T1) (fb2 : T2) (p1 p2 : String)
        (map1 : String → Option T1) (map2 : String → Option T2),
      upper p1 = upper p2 →
      Diag.warnDup (upper p2) ∈
        (Loader.load_and_map env (Loader.load_and_map env l fb1 p1 map1).2
          fb2 p2 map2).2.logs) := by
  refine ⟨fun h => ?_, fun h => ?_, ?_⟩
  · simp [Loader.is_duplicated, h]
  · simp [Loader.is_duplicated, h]
  · intro T1 T2 env fb1 fb2 p1 p2 map1 map2 hcase
    rw [lam_logs, lam_paths, ← hcase]
    by_cases h : upper p1 ∈ l.paths <;> simp [h]

/-- Witness for C3 amended: a present path, an absent path, and a pair of
`load_and_map` consultations differing only in case flagging a duplicate. -/
theorem C3_amended_witness :
    ((⟨["A"], []⟩ : Loader).is_duplicated "A" = (true, ⟨["A"], []⟩)) ∧
    ((Loader.new.is_duplicated "A").1 = false ∧
      (Loader.new.is_duplicated "A").2.paths = ["A"]) ∧
    Diag.warnDup (upper "A") ∈
      (Loader.load_and_map (fun _ => none)
        (Loader.load_and_map (fun _ => none) Loader.new (0 : Nat) "a"
          (fun _ => none)).2
        (0 : Nat) "A" (fun _ => none)).2.logs :=
  ⟨(C3_is_duplicated_exact ⟨["A"], []⟩ "A").1 (by decide),
   (C3_is_duplicated_exact Loader.new "A").2.1 (by decide),
   (C3_is_duplicated_exact Loader.new "A").2.2 (fun _ => none) 0 0 "a" "A"
     (fun _ => none) (fun _ => none) (by decide)⟩

/-- C4: a duplicate path neither aborts nor suppresses the override.
(1) The value `load_and_map` returns does not depend on the loader's path set
at all, so the lookup and conversion proceed for a duplicated path exactly as
for a first-time one.  (2) When the upper-cased path is already registered, a
duplicate warning is emitted.  (3) When two paths normalize to the same key,
that key is set, and the conversion succeeds, both consultations receive the
parsed value and the second one produces the conflict diagnostic. -/
theorem C4_dup_no_suppress {T : Type} (env : Env) (fb : T) (path : String)
    (map : String → Option T) (l l2 : Loader) :
    ((Loader.load_and_map env l fb path map).1 =
      (Loader.load_and_map env l2 fb path map).1) ∧
    (upper path ∈ l.paths →
      Diag.warnDup (upper path) ∈
        (Loader.load_and_map env l fb path map).2.logs) ∧
    (∀ (s : String) (v : T) (p1 p2 : String) (fb1 fb2 : T),
      upper p1 = upper p2 → env (upper p1) = some s → map s = some v →
      (Loader.load_and_map env l fb1 p1 map).1 = v ∧
      (Loader.load_and_map env
        (Loader.load_and_map env l fb1 p1 map).2 fb2 p2 map).1 = v ∧
      Diag.warnDup (upper p2) ∈
        (Loader.load_and_map env
          (Loader.load_and_map env l fb1 p1 map).2 fb2 p2 map).2.logs) := by
  refine ⟨?_, fun h => ?_, fun s v p1 p2 fb1 fb2 hcase he hm => ⟨?_, ?_, ?_⟩⟩
  · rw [lam_fst, lam_fst]
  · rw [lam_logs]; simp [h]
  · rw [lam_fst]; simp [he, hm]
  · rw [lam_fst, ← hcase]; simp [he, hm]
  · rw [lam_logs, lam_paths, ← hcase]
    by_cases h : upper p1 ∈ l.paths <;> simp [h]

/-- Witness for C4: two fields building `"v2_v1"` and `"V2_V1"` under a fresh
loader, with the shared key set to `"7"`: both consultations yield `7` and
the second consultation emits the conflict warning. -/
theorem C4_witness :
    (Loader.load_and_map (fun k => if k = "V2_V1" then some "7" else none)
      Loader.new (1 : Nat) "v2_v1"
      (fun s => if s = "7" then some 7 else none)).1 = 7 ∧
    (Loader.load_and_map (fun k => if k = "V2_V1" then some "7" else none)
      (Loader.load_and_map (fun k => if k = "V2_V1" then some "7" else none)
        Loader.new (1 : Nat) "v2_v1"
        (fun s => if s = "7" then some 7 else none)).2
      (2 : Nat) "V2_V1" (fun s => if s = "7" then some 7 else none)).1 = 7 ∧
    Diag.warnDup (upper "V2_V1") ∈
      (Loader.load_and_map (fun k => if k = "V2_V1" then some "7" else none)
        (Loader.load_and_map (fun k => if k = "V2_V1" then some "7" else none)
          Loader.new (1 : Nat) "v2_v1"
          (fun s => if s = "7" then some 7 else none)).2
        (2 : Nat) "V2_V1" (fun s => if s = "7" then some 7 else none)).2.logs :=
  (C4_dup_no_suppress (fun k => if k = "V2_V1" then some "7" else none) 1
    "v2_v1" (fun s => if s = "7" then some 7 else none) Loader.new
    Loader.new).2.2 "7" 7 "v2_v1" "V2_V1" 1 2 (by decide) (by decide)
    (by decide)

/-- C2: `load` is the identity when no overrides are present: for every value
of a (derive-shaped, hence well-formed) type participating in the override
protocol and every prefix, if the environment is unset at every key the
descent derives from that prefix, then `load(v, prefix) = v`. -/
theorem C2_load_id {V : Type} (env : Env) (sch : Sch V) (v : Val V)
    (pfx : String) (hwf : wfSch sch)
    (h : ∀ k ∈ keysOf sch v pfx, env k = none) :
    load env sch v pfx = v :=
  loadSch_fst_id env sch v pfx Loader.new hwf h

/-- Witness for C2: a named record holding a scalar leaf and a unit enum,
loaded under an entirely empty environment, comes back unchanged. -/
theorem C2_witness :
    wfSch (Sch.recd true (Fields.fcons false none "x"
      (Sch.leaf (fun s => if s = "1" then some (1 : Nat) else none))
      (Fields.fcons false none "m"
        (Sch.enm [("V1", none), ("V2", some "TWO")]) Fields.nil))) ∧
    load (fun _ => none)
      (Sch.recd true (Fields.fcons false none "x"
        (Sch.leaf (fun s => if s = "1" then some (1 : Nat) else none))
        (Fields.fcons false none "m"
          (Sch.enm [("V1", none), ("V2", some "TWO")]) Fields.nil)))
      (Val.recv (Vals.vcons (Val.leafv 5)
        (Vals.vcons (Val.enumv "V1") Vals.nil))) "P" =
      Val.recv (Vals.vcons (Val.leafv 5)
        (Vals.vcons (Val.enumv "V1") Vals.nil)) :=
  ⟨by simp [wfSch, wfFields]; decide,
   C2_load_id _ _ _ _ (by simp [wfSch, wfFields]; decide) (fun k _ => rfl)⟩

/-- C8: each `load` invocation constructs a fresh, empty duplicate tracker
(`Loader.new` has an empty path set and log), threads exactly that tracker
through the whole descent, and discards it when `load` returns (only the value
is returned); the registered-path set grows monotonically during the descent.
Because `load` is a function of the environment, schema, value and prefix
alone, no path registered in one call can affect any other call. -/
theorem C8_fresh_tracker {V : Type} (env : Env) (sch : Sch V) (v : Val V)
    (pfx : String) (st : Loader) :
    Loader.new.paths = [] ∧
    Loader.new.logs = [] ∧
    load env sch v pfx = (loadSch env sch v pfx Loader.new).1 ∧
    (∀ x ∈ st.paths, x ∈ (loadSch env sch v pfx st).2.paths) :=
  ⟨rfl, rfl, rfl, loadSch_paths_mono env sch v pfx st⟩

/-- Witness for C8: monotonic growth at a concrete input — a path already in
the tracker is still there after descending a one-field record. -/
theorem C8_witness :
    Loader.new.paths = [] ∧
    "A" ∈ (loadSch (fun _ => none)
      (Sch.recd true (Fields.fcons false none "x"
        (Sch.leaf (fun s => some (s.length : Nat))) Fields.nil))
      (Val.recv (Vals.vcons (Val.leafv 5) Vals.nil)) "P"
      (⟨["A"], []⟩ : Loader)).2.paths :=
  ⟨(C8_fresh_tracker (fun _ => none)
      (Sch.recd true (Fields.fcons false none "x"
        (Sch.leaf (fun s => some (s.length : Nat))) Fields.nil))
      (Val.recv (Vals.vcons (Val.leafv 5) Vals.nil)) "P"
      (⟨["A"], []⟩ : Loader)).1,
   (C8_fresh_tracker (fun _ => none)
      (Sch.recd true (Fields.fcons false none "x"
        (Sch.leaf (fun s => some (s.length : Nat))) Fields.nil))
      (Val.recv (Vals.vcons (Val.leafv 5) Vals.nil)) "P"
      (⟨["A"], []⟩ : Loader)).2.2.2 "A" (by simp)⟩

/-- C9: every `load_and_map` call registers the consulted upper-cased path
unconditionally — the membership below carries no hypothesis about the
environment or the conversion, so it holds when the variable is absent and
when its value fails to parse, i.e. even when no override occurs.  A further
consultation of the same path is then flagged as a duplicate: `is_duplicated`
answers `true` on it, and a second `load_and_map` logs the conflict warning. -/
theorem C9_register_unconditional {T T2 : Type} (env env2 : Env) (l : Loader)
    (fb : T) (fb2 : T2) (path : String) (map : String → Option T)
    (map2 : String → Option T2) :
    upper path ∈ (Loader.load_and_map env l fb path map).2.paths ∧
    ((Loader.load_and_map env l fb path map).2.is_duplicated
      (upper path)).1 = true ∧
    Diag.warnDup (upper path) ∈
      (Loader.load_and_map env2 (Loader.load_and_map env l fb path map).2
        fb2 path map2).2.logs := by
  have hmem : upper path ∈ (Loader.load_and_map env l fb path map).2.paths := by
    rw [lam_paths]; by_cases h : upper path ∈ l.paths <;> simp [h]
  refine ⟨hmem, ?_, ?_⟩
  · simp [Loader.is_duplicated, hmem]
  · rw [lam_logs]; simp [hmem]

/-- C5: for every derived unit-variant enumeration, descending at path `p`
first resolves a plain string override at exactly `p` starting from the
`String::default()` sentinel (so the resolved string is the environment value
at the upper-cased path, or `""` when absent); if the resolved string is
empty the original value is returned unchanged; if it matches, case-sensitively
and exactly, some variant's token (its rename when present, else its name),
the first such variant becomes the new value; otherwise an error diagnostic
is logged and the original value is returned unchanged.  The well-formedness
hypothesis records that derive output never has an empty variant token. -/
theorem C5_enum_resolution {V : Type} (env : Env)
    (variants : List (String × Option String)) (cur path : String)
    (st : Loader) (hwf : wfVariants variants) :
    ((Loader.load_and_map env st "" path (fun x => some x)).1 =
      (env (upper path)).getD "") ∧
    ((env (upper path)).getD "" = "" →
      (loadSch (V := V) env (.enm variants) (.enumv cur) path st).1 =
        .enumv cur) ∧
    (∀ id, findTok variants ((env (upper path)).getD "") = some id →
      (loadSch (V := V) env (.enm variants) (.enumv cur) path st).1 =
        .enumv id) ∧
    (findTok variants ((env (upper path)).getD "") = none →
      (env (upper path)).getD "" ≠ "" →
      (loadSch (V := V) env (.enm variants) (.enumv cur) path st).1 =
        .enumv cur ∧
      Diag.errVariant ((env (upper path)).getD "") ∈
        (loadSch (V := V) env (.enm variants) (.enumv cur) path st).2.logs) := by
  have hs : (Loader.load_and_map env st "" path (fun x => some x)).1 =
      (env (upper path)).getD "" := by
    rw [lam_fst]; cases env (upper path) <;> simp
  refine ⟨hs, fun hz => ?_, fun id hid => ?_, fun hnone hnz => ?_⟩
  · simp [loadSch, hs, hz, findTok_empty_of_wf variants hwf]
  · simp [loadSch, hs, hid]
  · constructor
    · simp [loadSch, hs, hnone, hnz]
    · simp [loadSch, hs, hnone, hnz, Loader.log]

/-- Witness for C5: enum `{V1, V2, V3}` with the key set to `"V2"` resolves to
variant `V2`; with the key set to `"Bogus"` the original variant survives and
the unmatched-variant error is logged. -/
theorem C5_witness :
    wfVariants [("V1", none), ("V2", none), ("V3", none)] ∧
    (loadSch (V := Unit) (fun k => if k = "P" then some "V2" else none)
      (.enm [("V1", none), ("V2", none), ("V3", none)]) (.enumv "V1") "p"
      Loader.new).1 = .enumv "V2" ∧
    (loadSch (V := Unit) (fun k => if k = "P" then some "Bogus" else none)
      (.enm [("V1", none), ("V2", none), ("V3", none)]) (.enumv "V1") "p"
      Loader.new).1 = .enumv "V1" ∧
    Diag.errVariant "Bogus" ∈
      (loadSch (V := Unit) (fun k => if k = "P" then some "Bogus" else none)
        (.enm [("V1", none), ("V2", none), ("V3", none)]) (.enumv "V1") "p"
        Loader.new).2.logs :=
  ⟨by decide,
   (C5_enum_resolution (V := Unit) (fun k => if k = "P" then some "V2" else none)
      [("V1", none), ("V2", none), ("V3", none)] "V1" "p" Loader.new
      (by decide)).2.2.1 "V2" (by decide),
   ((C5_enum_resolution (V := Unit)
      (fun k => if k = "P" then some "Bogus" else none)
      [("V1", none), ("V2", none), ("V3", none)] "V1" "p" Loader.new
      (by decide)).2.2.2 (by decide) (by decide)).1,
   ((C5_enum_resolution (V := Unit)
      (fun k => if k = "P" then some "Bogus" else none)
      [("V1", none), ("V2", none), ("V3", none)] "V1" "p" Loader.new
      (by decide)).2.2.2 (by decide) (by decide)).2⟩

/-- C10: when the environment variable at a derived enum's path is present
but set to the empty string, the descent returns the original variant
unchanged and adds no unmatched-variant error (any `errVariant` entry in the
resulting log was already there); the empty string can never select a
variant, exactly as when the variable is absent. -/
theorem C10_enum_empty_string {V : Type} (env : Env)
    (variants : List (String × Option String)) (cur path : String)
    (st : Loader) (hwf : wfVariants variants)
    (he : env (upper path) = some "") :
    (loadSch (V := V) env (.enm variants) (.enumv cur) path st).1 =
      .enumv cur ∧
    (∀ s, Diag.errVariant s ∈
        (loadSch (V := V) env (.enm variants) (.enumv cur) path st).2.logs →
      Diag.errVariant s ∈ st.logs) ∧
    findTok variants "" = none := by
  have hs : (Loader.load_and_map env st "" path (fun x => some x)).1 = "" := by
    rw [lam_fst, he]; rfl
  have hft := findTok_empty_of_wf variants hwf
  have hres : loadSch (V := V) env (.enm variants) (.enumv cur) path st =
      (.enumv cur, (Loader.load_and_map env st "" path (fun x => some x)).2) := by
    simp [loadSch, hs, hft]
  refine ⟨by rw [hres], fun s hmem => ?_, hft⟩
  rw [hres] at hmem
  rw [lam_logs] at hmem
  by_cases hdup : upper path ∈ st.paths <;> simp [hdup, he] at hmem <;>
    exact hmem

/-- Witness for C10: key present with value `""` — the original variant
survives and the log carries no unmatched-variant error. -/
theorem C10_witness :
    (loadSch (V := Unit) (fun k => if k = "P" then some "" else none)
      (.enm [("V1", none), ("V2", none)]) (.enumv "V1") "p"
      Loader.new).1 = .enumv "V1" ∧
    findTok [("V1", none), ("V2", none)] "" = none :=
  ⟨(C10_enum_empty_string (V := Unit)
      (fun k => if k = "P" then some "" else none) [("V1", none), ("V2", none)]
      "V1" "p" Loader.new (by decide) (by decide)).1,
   (C10_enum_empty_string (V := Unit)
      (fun k => if k = "P" then some "" else none) [("V1", none), ("V2", none)]
      "V1" "p" Loader.new (by decide) (by decide)).2.2⟩

/-- C6: a field carrying the skip annotation is excluded from the override
protocol entirely: processing it neither reads the environment, nor registers
a path, nor logs anything — the loader state is passed through untouched and
the descent continues on the remaining fields as usual (first conjunct); its
consulted-key list is empty (second conjunct); and at any position `j` of any
record, a skipped field's value comes out identical to its input value,
regardless of the environment (third conjunct). -/
theorem C6_skip_frame {V : Type} (env : Env) (named : Bool)
    (rn : Option String) (id : String) (sub : Sch V) (rest : Fields V)
    (v : Val V) (vs : Vals V) (path : String) (i : Nat) (st : Loader)
    (fields : Fields V) (vals : Vals V) (j : Nat) :
    (loadFields env named (.fcons true rn id sub rest) (.vcons v vs) path i st =
      (.vcons v (loadFields env named rest vs path (i + 1) st).1,
       (loadFields env named rest vs path (i + 1) st).2)) ∧
    (keysFields named (.fcons true rn id sub rest) (.vcons v vs) path i =
      keysFields named rest vs path (i + 1)) ∧
    (skipAt fields j = some true →
      getVal (loadFields env named fields vals path i st).1 j = getVal vals j) := by
  refine ⟨by simp [loadFields], by simp [keysFields],
    fun hskip => loadFields_skip_get env named fields vals path i st j hskip⟩

/-- Witness for C6: a two-field record whose first field is skipped, with its
would-be key set in the environment: the skipped field keeps its value. -/
theorem C6_witness :
    getVal (loadFields (fun k => if k = "P_Y" then some "1" else none) true
      (Fields.fcons true none "y"
        (Sch.leaf (fun s => if s = "1" then some (1 : Nat) else none))
        (Fields.fcons false none "x"
          (Sch.leaf (fun s => if s = "1" then some (1 : Nat) else none))
          Fields.nil))
      (Vals.vcons (Val.leafv 9) (Vals.vcons (Val.leafv 5) Vals.nil)) "p" 0
      Loader.new).1 0 =
      getVal (Vals.vcons (Val.leafv 9) (Vals.vcons (Val.leafv 5) Vals.nil)) 0 :=
  (C6_skip_frame (fun k => if k = "P_Y" then some "1" else none) true none "y"
    (Sch.leaf (fun s => if s = "1" then some (1 : Nat) else none)) Fields.nil
    (Val.leafv 9) Vals.nil "p" 0 Loader.new
    (Fields.fcons true none "y"
      (Sch.leaf (fun s => if s = "1" then some (1 : Nat) else none))
      (Fields.fcons false none "x"
        (Sch.leaf (fun s => if s = "1" then some (1 : Nat) else none))
        Fields.nil))
    (Vals.vcons (Val.leafv 9) (Vals.vcons (Val.leafv 5) Vals.nil)) 0).2.2
    (by simp [skipAt])

/-- C7: the child path of a field is exactly `basePath + "_" + segment`
(first conjunct), where the segment is the rename when present, the
identifier for a named field, and the decimal zero-based index for a
positional field (second conjunct); building applies no case folding (the
concatenation is literal), and upper-casing happens exactly once, at lookup
(third conjunct: the key a leaf consults is the upper-cased built path), so
two paths differing only in case are the same override target (fourth
conjunct: `load_and_map` behaves identically on them). -/
theorem C7_path_building {V T : Type} (env : Env) (named : Bool)
    (rn : Option String) (id : String) (sub : Sch V) (rest : Fields V)
    (v : Val V) (vs : Vals V) (path : String) (i : Nat) (st : Loader)
    (parse : String → Option V) (w : V) (fb : T) (map : String → Option T)
    (p1 p2 : String) :
    (loadFields env named (.fcons false rn id sub rest) (.vcons v vs) path i st =
      (.vcons
        (loadSch env sub v (path ++ "_" ++ segmentOf named i rn id) st).1
        (loadFields env named rest vs path (i + 1)
          (loadSch env sub v (path ++ "_" ++ segmentOf named i rn id) st).2).1,
       (loadFields env named rest vs path (i + 1)
          (loadSch env sub v (path ++ "_" ++ segmentOf named i rn id) st).2).2)) ∧
    ((∀ r, segmentOf named i (some r) id = r) ∧
      segmentOf true i none id = id ∧
      segmentOf false i none id = toString i) ∧
    (keysOf (.leaf parse) (.leafv w) (path ++ "_" ++ segmentOf named i rn id) =
      [upper (path ++ "_" ++ segmentOf named i rn id)]) ∧
    (upper p1 = upper p2 →
      Loader.load_and_map env st fb p1 map =
        Loader.load_and_map env st fb p2 map) := by
  refine ⟨by simp [loadFields, childPath], ⟨fun r => rfl, rfl, rfl⟩,
    by simp [keysOf], fun hcase => ?_⟩
  unfold Loader.load_and_map
  rw [hcase]

/-- Witness for C7: `prefix_Field` and `PREFIX_FIELD` are the same override
target. -/
theorem C7_witness :
    Loader.load_and_map (fun k => if k = "PREFIX_FIELD" then some "7" else none)
      Loader.new (0 : Nat) "prefix_Field"
      (fun s => if s = "7" then some 7 else none) =
    Loader.load_and_map (fun k => if k = "PREFIX_FIELD" then some "7" else none)
      Loader.new (0 : Nat) "PREFIX_FIELD"
      (fun s => if s = "7" then some 7 else none) :=
  (C7_path_building (V := Unit)
    (fun k => if k = "PREFIX_FIELD" then some "7" else none) true none "f"
    (Sch.leaf (fun _ => none)) Fields.nil (Val.enumv "u") Vals.nil "p" 0
    Loader.new (fun _ => none) () 0
    (fun s => if s = "7" then some 7 else none) "prefix_Field"
    "PREFIX_FIELD").2.2.2 (by decide)

end Econf
